import Mathlib

/-!
Verification of the gitstats statistics engine (`gitstats/stats.py`,
`gitstats/cli.py`, `gitstats/display.py`) against its specification.

Modelling conventions:
* A Python `datetime` is represented by its POSIX timestamp in seconds, as an
  `Int`; `datetime.fromtimestamp` is the identity under this encoding (one
  fixed timezone).  A calendar day is the number `t / 86400`; Lean's `Int`
  division and modulus with a positive divisor are floor division and a
  nonnegative remainder, exactly Python's `//`, `%` and `timedelta.days`
  semantics.
* Python dicts/sets keyed by strftime date strings are represented by the
  corresponding `(year, month, day)`-derived keys; the string rendering is
  injective, so distinct keys and sort order coincide.
* Real-valued metrics (Python floats) are modelled by exact rationals `ℚ`.
-/

/-- Floor division day number of a timestamp: `datetime.fromtimestamp(t)`'s
calendar day, as days since the Unix epoch. -/
def dayOfTs (t : Int) : Int := t / 86400

/-- Python's `date.weekday()`: Monday = 0 … Sunday = 6.  Day 0 (1970-01-01)
was a Thursday, hence the offset 3. -/
def weekdayOfDay (z : Int) : Int := (z + 3) % 7

/-- Gregorian calendar date `(year, month, day)` of a day number (civil
calendar from days, Hinnant's algorithm, valid for all days). -/
def civilFromDays (z : Int) : Int × Int × Int :=
  let z' := z + 719468
  let era := z' / 146097
  let doe := z' - era * 146097
  let yoe := (doe - doe / 1460 + doe / 36524 - doe / 146096) / 365
  let y := yoe + era * 400
  let doy := doe - (365 * yoe + yoe / 4 - yoe / 100)
  let mp := (5 * doy + 2) / 153
  let d := doy - (153 * mp + 2) / 5 + 1
  let m := mp + (if mp < 10 then 3 else -9)
  (y + (if m ≤ 2 then 1 else 0), m, d)

/-- Day number of a Gregorian calendar date (inverse of `civilFromDays`). -/
def daysFromCivil (y m d : Int) : Int :=
  let y' := y - (if m ≤ 2 then 1 else 0)
  let era := y' / 400
  let yoe := y' - era * 400
  let mp := (m + 9) % 12
  let doy := (153 * mp + 2) / 5 + d - 1
  let doe := yoe * 365 + yoe / 4 - yoe / 100 + doy
  era * 146097 + doe - 719468

/-- Number of ISO-8601 weeks in year `y` (52 or 53). -/
def isoWeeksInYear (y : Int) : Int :=
  let p : Int → Int := fun n => (n + n / 4 - n / 100 + n / 400) % 7
  if p y = 4 ∨ p (y - 1) = 3 then 53 else 52

/-- `datetime.isocalendar()`'s `(iso_year, iso_week)` of the calendar date
`(y, m, d)`. -/
def isoYearWeek (y m d : Int) : Int × Int :=
  let z := daysFromCivil y m d
  let dow := weekdayOfDay z + 1
  let doy := z - daysFromCivil y 1 1 + 1
  let w := (doy - dow + 10) / 7
  if w < 1 then (y - 1, isoWeeksInYear (y - 1))
  else if w > isoWeeksInYear y then (y + 1, 1)
  else (y, w)

/-- The `'%Y-W%W'`-style ISO week bucket key of a timestamp
(`stats.py` line 231 builds it from `isocalendar()`). -/
def isoWeekKeyOfTs (t : Int) : Int × Int :=
  let c := civilFromDays (dayOfTs t)
  isoYearWeek c.1 c.2.1 c.2.2

/-- The `'%Y-%m'` month bucket key of a timestamp. -/
def monthKeyOfTs (t : Int) : Int × Int :=
  let c := civilFromDays (dayOfTs t)
  (c.1, c.2.1)

/-- `year * 12 + month` of a day number, the quantity
`date.year * 12 + date.month` used by the month-span computations. -/
def monthIndexOfDay (z : Int) : Int :=
  let c := civilFromDays z
  c.1 * 12 + c.2.1

/-- `stats.py` `is_workday`: `date.weekday() < 5`. -/
def is_workday (t : Int) : Bool := weekdayOfDay (dayOfTs t) < 5

/-! ### Date filtering (`stats.py` lines 178–195)

`since` and `until` arrive as `YYYY-MM-DD` strings; `datetime.strptime`
turns each into the *midnight* instant of that calendar date.  We represent
a parsed filter date by its day number; its midnight instant is
`day * 86400`.  A commit is dropped when `commit_date < since_date`, and
dropped when `commit_date > until_date`. -/

/-- Whether a commit timestamp passes the since/until filters, translated
from the filter loop of `get_repo_stats`. -/
def keepCommit (t : Int) (sinceDay untilDay : Option Int) : Bool :=
  (match sinceDay with
   | none => true
   | some s => !(decide (t < s * 86400))) &&
  (match untilDay with
   | none => true
   | some u => !(decide (t > u * 86400)))

/-! ### Email normalization (`stats.py` `normalize_email`, lines 20–38) -/

/-- ASCII lower-casing of one character (`str.lower()` restricted to the
ASCII range, sufficient for email addresses). -/
def asciiLowerChar (c : Char) : Char :=
  if 'A' ≤ c ∧ c ≤ 'Z' then Char.ofNat (c.toNat + 32) else c

/-- `str.lower()` over the character list of a string. -/
def pyLower (s : List Char) : List Char := s.map asciiLowerChar

/-- Python's default whitespace set for `str.strip()`. -/
def isPySpace (c : Char) : Bool :=
  c = ' ' ∨ c = '\t' ∨ c = '\n' ∨ c = '\r' ∨ c.toNat = 11 ∨ c.toNat = 12

/-- `str.strip()`: drop whitespace from both ends. -/
def pyStrip (s : List Char) : List Char :=
  ((s.dropWhile isPySpace).reverse.dropWhile isPySpace).reverse

/-- Whether `pat` occurs at the start of `l`. -/
def startsWithChars : List Char → List Char → Bool
  | _, [] => true
  | [], _ :: _ => false
  | a :: as, b :: bs => a = b && startsWithChars as bs

/-- Python's `pat in s` substring test. -/
def containsSub (l pat : List Char) : Bool :=
  match l with
  | [] => startsWithChars [] pat
  | _ :: t => startsWithChars l pat || containsSub t pat

/-- The capture group of the first match of the regex `([^+]+)\+` in `s`
(`re.search` in `normalize_email`): skip any leading `'+'` characters, take
the maximal run of non-`'+'` characters, and succeed only if a `'+'`
follows that run. -/
def firstNonPlusRun (s : List Char) : Option (List Char) :=
  let s1 := s.dropWhile (fun c => c = '+')
  let r := s1.takeWhile (fun c => ¬ (c = '+'))
  match s1.drop r.length with
  | [] => none
  | _ :: _ => some r

/-- `stats.py` `normalize_email`: lower-case, strip, and rewrite GitHub
noreply addresses using the capture group of `([^+]+)\+`. -/
def normalize_email (email : String) : String :=
  if email = "" then "unknown@example.com"
  else
    let e := pyStrip (pyLower email.data)
    if e.contains '+' && containsSub e "@users.noreply.github.com".data then
      match firstNonPlusRun e with
      | some g => String.mk (g ++ "@github.com".data)
      | none => String.mk e
    else String.mk e

/-! ### Email consolidation (`stats.py` lines 136–163)

`author_emails` is an insertion-ordered mapping from canonical identity to
the set of normalized emails observed for it; we model it as an ordered
association list (Python dicts preserve insertion order).  Email sets are
modelled as duplicate-free lists; `sorted(all_emails)[0]` is the
lexicographically smallest element, which is order-independent. -/

/-- Lexicographic `≤` on character lists: Python's string ordering for
ASCII strings. -/
def charListLe : List Char → List Char → Bool
  | [], _ => true
  | _ :: _, [] => false
  | a :: as, b :: bs => if a = b then charListLe as bs else decide (a < b)

/-- The smaller of two strings under Python's string ordering. -/
def strMin (a b : String) : String := if charListLe a.data b.data then a else b

/-- `sorted(xs)[0]`: the lexicographically smallest string of a nonempty
list (`""` for an empty list, unreachable in the source). -/
def minEmail : List String → String
  | [] => ""
  | e :: es => es.foldl strMin e

/-- Add an element to a set-as-list if absent (Python `set.add`). -/
def addUnique (l : List String) (x : String) : List String :=
  if x ∈ l then l else l ++ [x]

/-- Union of a set-as-list with the elements of another list
(Python `set.update`). -/
def unionUnique (l xs : List String) : List String := xs.foldl addUnique l

/-- `not emails.isdisjoint(other_emails)`: the two lists share an element. -/
def sharesEmail (a b : List String) : Bool := a.any (fun x => x ∈ b)

/-- The inner scan of the consolidation loop: starting from the seed
`author` with its `emails`, add every *other* author whose email set
intersects the seed's `emails` (note: the source compares against the
seed's own set, not the growing union), returning
`(related_authors, all_emails)`. -/
def relatedScan (author : String) (emails : List String)
    (ae : List (String × List String)) : List String × List String :=
  ae.foldl
    (fun acc p =>
      if p.1 ≠ author ∧ sharesEmail emails p.2 then
        (addUnique acc.1 p.1, unionUnique acc.2 p.2)
      else acc)
    ([author], emails)

/-- Dict assignment `m[k] = v` on an association list: overwrite the
existing binding or append a new one. -/
def setMapEntry (m : List (String × String)) (k v : String) :
    List (String × String) :=
  if m.any (fun p => p.1 = k) then
    m.map (fun p => if p.1 = k then (k, v) else p)
  else m ++ [(k, v)]

/-- The consolidation loop of `get_repo_stats`: one pass over the authors
in insertion order; each unprocessed author seeds a group of the authors
sharing an email with it, all emails of the group map to the group's
lexicographically smallest email, and all group members are marked
processed. -/
def consolidateEmails (ae : List (String × List String)) :
    List (String × String) :=
  (ae.foldl
    (fun (acc : List String × List (String × String)) p =>
      if p.1 ∈ acc.1 then acc
      else
        let r := relatedScan p.1 p.2 ae
        let canonical := minEmail r.2
        (unionUnique acc.1 r.1, r.2.foldl (fun m e => setMapEntry m e canonical) acc.2))
    ([], [])).2

/-- `consolidated_emails.get(email, email)`. -/
def lookupEmail (m : List (String × String)) (e : String) : String :=
  match m.find? (fun p => p.1 = e) with
  | some p => p.2
  | none => e

/-- The A–B–C chain input of the claim: A uses `{x, y}`, B uses `{y, z}`,
C uses `{z}` with `x = "a@e" < y = "b@e" < z = "c@e"`. -/
def chainAuthorEmails : List (String × List String) :=
  [("A", ["a@e", "b@e"]), ("B", ["b@e", "c@e"]), ("C", ["c@e"])]

/-! ### Multi-repository merge (`cli.py` `merge_stats`, lines 87–206)

A per-repository result value for one identity, restricted to the fields
the merge combines arithmetically.  `commit_hashes := none` models a dict
*without* a `'commit_hashes'` key — which is what `get_repo_stats`
produces: its stats dict (`stats.py` lines 92–106) never records commit
hashes.  Python sets of hashes are modelled as duplicate-free lists. -/

structure DevData where
  commits : Nat
  lines_added : Nat
  lines_deleted : Nat
  net_lines : Int
  files_changed : Nat
  commit_hashes : Option (List String)

/-- The merged accumulator for one identity; the defaultdict initializer
of `merge_stats` always creates the `commit_hashes` set. -/
structure MergedDev where
  commits : Nat
  lines_added : Nat
  lines_deleted : Nat
  net_lines : Int
  files_changed : Nat
  commit_hashes : List String

/-- The zero-valued record produced by the `merge_stats` defaultdict. -/
def emptyMergedDev : MergedDev :=
  { commits := 0, lines_added := 0, lines_deleted := 0, net_lines := 0,
    files_changed := 0, commit_hashes := [] }

/-- `merged["commit_hashes"].update(hashes_to_add)`: set union, keeping
first occurrences. -/
def hashUpdate (cur : List String) (hs : List String) : List String :=
  hs.foldl (fun acc h => if h ∈ acc then acc else acc ++ [h]) cur

/-- One iteration of the inner loop of `merge_stats` for one identity:
union the hash set only when the incoming dict has a `'commit_hashes'`
key, overwrite `commits` with the size of the merged hash set, and add the
churn counters. -/
def mergeDevInto (m : MergedDev) (d : DevData) : MergedDev :=
  let hashes :=
    match d.commit_hashes with
    | some hs => hashUpdate m.commit_hashes hs
    | none => m.commit_hashes
  { commits := hashes.length,
    lines_added := m.lines_added + d.lines_added,
    lines_deleted := m.lines_deleted + d.lines_deleted,
    net_lines := m.net_lines + d.net_lines,
    files_changed := m.files_changed + d.files_changed,
    commit_hashes := hashes }

/-- `merged_stats[identity]` on the association-list representation of the
defaultdict: the stored record, or the zero record if absent. -/
def getMerged (acc : List (String × MergedDev)) (i : String) : MergedDev :=
  match acc.find? (fun p => p.1 = i) with
  | some p => p.2
  | none => emptyMergedDev

/-- Store back `merged_stats[identity]`. -/
def setMerged (acc : List (String × MergedDev)) (i : String) (v : MergedDev) :
    List (String × MergedDev) :=
  if acc.any (fun p => p.1 = i) then
    acc.map (fun p => if p.1 = i then (i, v) else p)
  else acc ++ [(i, v)]

/-- The accumulation phase of `merge_stats` over a list of per-repository
result sets (each an insertion-ordered identity → data mapping). -/
def merge_stats (statsList : List (List (String × DevData))) :
    List (String × MergedDev) :=
  statsList.foldl
    (fun acc stats =>
      stats.foldl
        (fun acc p => setMerged acc p.1 (mergeDevInto (getMerged acc p.1) p.2))
        acc)
    []

/-- A single-repository result for one identity as `get_repo_stats`
actually returns it: 3 commits, some churn, and *no* `commit_hashes` key. -/
def c2RepoDev : DevData :=
  { commits := 3, lines_added := 100, lines_deleted := 40, net_lines := 60,
    files_changed := 5, commit_hashes := none }

/-- A concrete identity record with hashes present, for the C10 witness. -/
def c10Dev : DevData :=
  { commits := 2, lines_added := 10, lines_deleted := 4, net_lines := 6,
    files_changed := 3, commit_hashes := some ["h1", "h2"] }

/-! ### Multi-repository error handling
(`stats.py` lines 64–71, 167–174, 441–443; `cli.py` lines 512–531)

Python separates `SystemExit` (raised by `sys.exit`, *not* a subclass of
`Exception`) from ordinary exceptions; a `try/except Exception` handler
lets `SystemExit` propagate and the process terminates.  We model the
error channel of one `get_repo_stats` call accordingly. -/

inductive PyError where
  | systemExit (code : Nat)
  | exception
deriving DecidableEq

/-- The ways one repository argument can behave, as distinguished by
`get_repo_stats`. -/
inductive RepoSpec where
  | valid (stats : List (String × DevData))
  | invalidPath
  | missingPath
  | badBranch
  | analysisFailure

/-- The outcome of one `get_repo_stats` call.  Every fatal path in the
source calls `sys.exit(1)`: invalid repository (line 68), nonexistent path
(line 71), missing branch (line 174), and any other analysis exception via
the `except Exception` handler at lines 441–443. -/
def get_repo_stats_outcome : RepoSpec →
    Except PyError (List (String × DevData))
  | .valid s => .ok s
  | .invalidPath => .error (.systemExit 1)
  | .missingPath => .error (.systemExit 1)
  | .badBranch => .error (.systemExit 1)
  | .analysisFailure => .error (.systemExit 1)

/-- The repository loop of `handle_stats_command`: each repository is
analyzed inside `try/except Exception`, which skips the repository and
continues on an ordinary exception — but a `SystemExit` escapes the
handler and aborts the whole run. -/
def collectRepoStats : List RepoSpec →
    Except PyError (List (List (String × DevData)))
  | [] => .ok []
  | r :: rs =>
    match get_repo_stats_outcome r with
    | .ok s => (collectRepoStats rs).map (fun l => s :: l)
    | .error .exception => collectRepoStats rs
    | .error e => .error e

/-! ### Finalization of per-identity metrics (`stats.py` lines 277–439)

The finalization pass derives ratios, gaps and streaks from the list of
commit timestamps of one identity.  `todayDay` is the day number of
`datetime.now()` truncated to midnight; the `commit_days`,
`commit_weeks` and `commit_months` counters are keyed by the commit's
calendar day, ISO week and month, with keys in first-insertion order. -/

/-- Running minimum of a timestamp list (`first_commit` is maintained as a
running minimum over processed commits); `0` for the empty list, which the
source never finalizes. -/
def minList : List Int → Int
  | [] => 0
  | x :: xs => xs.foldl min x

/-- Insert a bucket key if it is not present yet (dict key creation in
first-insertion order). -/
def addKey {α : Type} [DecidableEq α] (l : List α) (x : α) : List α :=
  if x ∈ l then l else l ++ [x]

/-- The distinct bucket keys of a list, in first-insertion order. -/
def keysOf {α : Type} [DecidableEq α] (xs : List α) : List α :=
  xs.foldl addKey []

/-- Keys of `commit_days`: distinct calendar days of the timestamps. -/
def activeDayKeys (dates : List Int) : List Int := keysOf (dates.map dayOfTs)

/-- Keys of `commit_weeks`: distinct `(iso_year, iso_week)` pairs. -/
def activeWeekKeys (dates : List Int) : List (Int × Int) :=
  keysOf (dates.map isoWeekKeyOfTs)

/-- Keys of `commit_months`: distinct `(year, month)` pairs. -/
def activeMonthKeys (dates : List Int) : List (Int × Int) :=
  keysOf (dates.map monthKeyOfTs)

/-- The `x / y if y > 0 else 0` guarded-ratio pattern used for all
coverage ratios. -/
def ratioOf (n : Nat) (t : Int) : ℚ :=
  if t > 0 then (n : ℚ) / (t : ℚ) else 0

/-- `stats.py` lines 300–314: total ISO weeks from the first commit's ISO
week to today's, assuming 52 weeks for every full year in between and
reading the week count of the first year off `datetime(y, 12, 28)`. -/
def totalWeeksCalc (todayDay firstTs : Int) : Int :=
  let fc := civilFromDays (dayOfTs firstTs)
  let fiso := isoYearWeek fc.1 fc.2.1 fc.2.2
  let tc := civilFromDays todayDay
  let tiso := isoYearWeek tc.1 tc.2.1 tc.2.2
  let first_week := fiso.2
  let first_year := fiso.1
  let today_week := tiso.2
  let today_year := tiso.1
  if first_year = today_year then today_week - first_week + 1
  else
    let years_between := today_year - first_year - 1
    let weeks_in_first_year := (isoYearWeek first_year 12 28).2 - first_week + 1
    weeks_in_first_year + years_between * 52 + today_week

/-- `sorted(...)` on timestamps or day numbers. -/
def sortedListOf (l : List Int) : List Int := List.insertionSort (· ≤ ·) l

/-- `sorted(commit_days.keys())`: the active days in chronological order
(the `'%Y-%m-%d'` string order coincides with day-number order). -/
def sortedActiveDays (dates : List Int) : List Int :=
  sortedListOf (activeDayKeys dates)

/-- Deltas between consecutive elements of a list. -/
def consecGaps : List Int → List Int
  | x :: y :: rest => (y - x) :: consecGaps (y :: rest)
  | _ => []

/-- `stats.py` lines 329–332: average gap in fractional days between
consecutive commits (`total_seconds() / 86400`), 0 with fewer than two
commits. -/
def avgGapDaysCalc (dates : List Int) : ℚ :=
  if dates.length > 1 then
    let gaps := (consecGaps (sortedListOf dates)).map (fun g => (g : ℚ) / 86400)
    gaps.sum / (gaps.length : ℚ)
  else 0

/-- Loop body of the plain streak/gap accounting (`stats.py` lines
384–395): strictly consecutive days extend a streak; any larger gap adds
`gap - 1` gap days. -/
def plainStreakGo (prev : Int) (cs ts : Nat) (tg : Int) :
    List Int → Nat × Int
  | [] => (ts + cs, tg)
  | x :: xs =>
    if x - prev = 1 then plainStreakGo x (cs + 1) ts tg xs
    else plainStreakGo x 1 (ts + cs) (tg + (x - prev - 1)) xs

/-- `(total_streak_days, total_gap_days)` over the sorted active days. -/
def plainStreakGap : List Int → Nat × Int
  | [] => (0, 0)
  | d :: rest => plainStreakGo d 1 0 0 rest

/-- Loop body of the display streak (`stats.py` lines 416–431): a day
extends the streak when it is 1 day after the previous one, or when the
previous day is a Friday and it is the following Monday within 3 days. -/
def maxStreakGo (prev : Int) (cs ms : Nat) : List Int → Nat
  | [] => ms
  | x :: xs =>
    if x - prev = 1 ∨
        (x - prev ≤ 3 ∧ weekdayOfDay prev = 4 ∧ weekdayOfDay x = 0) then
      maxStreakGo x (cs + 1) (max ms (cs + 1)) xs
    else maxStreakGo x 1 ms xs

/-- The display `max_streak` over the sorted active days (0 when there are
none). -/
def maxStreakCalc : List Int → Nat
  | [] => 0
  | d :: rest => maxStreakGo d 1 1 rest

/-- The derived per-identity fields computed by the finalization pass that
the claims are about. -/
structure Finalized where
  total_days : Int
  days_with_commits : Nat
  commit_day_ratio : ℚ
  total_weeks : Int
  weeks_with_commits : Nat
  commit_week_ratio : ℚ
  total_months : Int
  months_with_commits : Nat
  commit_month_ratio : ℚ
  avg_gap_days : ℚ
  total_streak_days : Nat
  total_gap_days : Int
  max_streak : Nat

/-- The finalization pass of `get_repo_stats` for one identity with commit
timestamps `dates` (nonempty in the source), run on day `todayDay`:
`total_days = (today - first_commit).days + 1`, week and month spans run
from the first commit to *today*, and the two streak computations run over
the sorted distinct active days. -/
def finalizeStats (todayDay : Int) (dates : List Int) : Finalized :=
  let first := minList dates
  let total_days := (todayDay * 86400 - first) / 86400 + 1
  let days_with_commits := (activeDayKeys dates).length
  let total_weeks := totalWeeksCalc todayDay first
  let weeks_with_commits := (activeWeekKeys dates).length
  let total_months := monthIndexOfDay todayDay - monthIndexOfDay (dayOfTs first) + 1
  let months_with_commits := (activeMonthKeys dates).length
  let sa := sortedActiveDays dates
  let psg := if sa.length > 1 then plainStreakGap sa else (sa.length, 0)
  { total_days := total_days
    days_with_commits := days_with_commits
    commit_day_ratio := ratioOf days_with_commits total_days
    total_weeks := total_weeks
    weeks_with_commits := weeks_with_commits
    commit_week_ratio := ratioOf weeks_with_commits total_weeks
    total_months := total_months
    months_with_commits := months_with_commits
    commit_month_ratio := ratioOf months_with_commits total_months
    avg_gap_days := avgGapDaysCalc dates
    total_streak_days := psg.1
    total_gap_days := psg.2
    max_streak := maxStreakCalc sa }

/-! ### Commit frequency score (`display.py` `get_commit_frequency_score`,
lines 39–57) -/

/-- The score inputs read from the finalized data dict. -/
structure ScoreInput where
  commit_day_ratio : ℚ
  commit_week_ratio : ℚ
  max_streak : Nat
  avg_gap_days : ℚ

/-- Floor of a rational (`q.num / q.den` with floor division). -/
def ratFloor (q : ℚ) : Int := q.num / (q.den : Int)

/-- Round-half-to-even to the nearest integer, Python's `round` tie rule. -/
def roundHalfEven (q : ℚ) : Int :=
  let n := ratFloor q
  let f := q - (n : ℚ)
  if f < 1 / 2 then n
  else if 1 / 2 < f then n + 1
  else if n % 2 = 0 then n else n + 1

/-- Python's `round(x, 1)` on the exact rational model. -/
def roundTo1 (q : ℚ) : ℚ := (roundHalfEven (q * 10) : ℚ) / 10

/-- `display.py` `get_commit_frequency_score`, translated clause by
clause: capped day, week and streak components, a gap penalty applied only
when `avg_gap_days > 7`, one-decimal rounding, and the final
`max(min(·, 10), 0)`. -/
def get_commit_frequency_score (d : ScoreInput) : ℚ :=
  let day_ratio_score := min (d.commit_day_ratio * 10) 5
  let week_ratio_score := min (d.commit_week_ratio * 5) 3
  let streak_score := min ((d.max_streak : ℚ) / 5) 2
  let gap_penalty :=
    if d.avg_gap_days > 7 then min ((d.avg_gap_days - 7) / 7) 2 else 0
  let score := day_ratio_score + week_ratio_score + streak_score - gap_penalty
  max (min (roundTo1 score) 10) 0

/-- `clamp(lo, hi, x)` as written in the specification's formula. -/
def clamp (lo hi x : ℚ) : ℚ := max lo (min hi x)

/-- The specification's closed-form score formula, written from the spec's
words (`gap_penalty = min(max(avg_gap_days-7,0)/7, 2)` unconditionally). -/
def spec_frequency_score (d : ScoreInput) : ℚ :=
  clamp 0 10 (roundTo1
    (min (d.commit_day_ratio * 10) 5 + min (d.commit_week_ratio * 5) 3 +
      min ((d.max_streak : ℚ) / 5) 2 - min (max (d.avg_gap_days - 7) 0 / 7) 2))

/-! ### Month span in the merge finalization (`cli.py` lines 273–292) -/

/-- The month-ratio block of `merge_stats`: the span runs from the
identity's own first commit month to its own last commit month (with the
`if data["last_commit"]` guard), returning
`(total_months, commit_month_ratio)`. -/
def merge_month_metrics (firstCommit : Int) (lastCommit : Option Int)
    (monthsWithCommits : Nat) : Int × ℚ :=
  match lastCommit with
  | some lc =>
    let dev_first_month := monthIndexOfDay (dayOfTs firstCommit)
    let dev_last_month := monthIndexOfDay (dayOfTs lc)
    let dev_total_months := dev_last_month - dev_first_month + 1
    (dev_total_months, ratioOf monthsWithCommits dev_total_months)
  | none => (0, 0)

/-- The claim's month-span formula, written from the spec's words:
`total_months = (last.year*12+last.month) - (first.year*12+first.month) + 1`
for the identity's own first and last commit timestamps. -/
def specMonthSpan (firstCommit lastCommit : Int) : Int :=
  (monthIndexOfDay (dayOfTs lastCommit)) - (monthIndexOfDay (dayOfTs firstCommit)) + 1

/-! ### Sanity checks and theorems -/

-- Sanity examples for the calendar model (1970-01-01 was a Thursday).
example : civilFromDays 0 = (1970, 1, 1) := by decide

example : civilFromDays 70 = (1970, 3, 12) := by decide

example : daysFromCivil 1970 3 12 = 70 := by decide

example : weekdayOfDay 1 = 4 := by decide

example : isoYearWeek 1970 1 1 = (1970, 1) := by decide

/-- Adding pairwise-fresh, duplicate-free hashes to a hash set appends
them all. -/
theorem hashUpdate_append_of_disjoint :
    ∀ (hs acc : List String), (∀ x ∈ hs, x ∉ acc) → hs.Nodup →
      hashUpdate acc hs = acc ++ hs := by
  intro hs
  induction hs with
  | nil => intro acc _ _; simp [hashUpdate]
  | cons h t ih =>
    intro acc hdisj hnd
    have hna : h ∉ acc := hdisj h (by simp)
    have step : hashUpdate acc (h :: t) = hashUpdate (acc ++ [h]) t := by
      simp [hashUpdate, hna]
    rw [step, ih (acc ++ [h])]
    · simp
    · intro x hx
      simp only [List.mem_append, List.mem_singleton]
      rintro (hxa | rfl)
      · exact hdisj x (by simp [hx]) hxa
      · exact (List.nodup_cons.mp hnd).1 hx
    · exact (List.nodup_cons.mp hnd).2

/-- Adding hashes that are already present leaves the hash set unchanged. -/
theorem hashUpdate_of_subset :
    ∀ (hs acc : List String), (∀ x ∈ hs, x ∈ acc) → hashUpdate acc hs = acc := by
  intro hs
  induction hs with
  | nil => intro acc _; simp [hashUpdate]
  | cons h t ih =>
    intro acc hsub
    have hin : h ∈ acc := hsub h (by simp)
    have step : hashUpdate acc (h :: t) = hashUpdate acc t := by
      simp [hashUpdate, hin]
    rw [step, ih acc (fun x hx => hsub x (by simp [hx]))]

/-- Every guarded ratio is nonnegative. -/
theorem ratioOf_nonneg (n : Nat) (t : Int) : 0 ≤ ratioOf n t := by
  unfold ratioOf
  split
  · next h => exact div_nonneg (Nat.cast_nonneg n) (by exact_mod_cast h.le)
  · exact le_refl 0

/-- C1: the consolidation is a single pairwise pass, not a transitive
closure.  On the A–B–C chain, A's group `{A, B}` maps all of
`a@e, b@e, c@e` to `a@e`, but C is left unprocessed and seeds a second
group `{C, B}` that *overwrites* `b@e` and `c@e` to map to `b@e`.  Emails
of chain-connected identities therefore end up with different canonical
emails (`a@e` for A's email, `b@e` for C's), contradicting the claim. -/
theorem c1_consolidation_not_transitive :
    lookupEmail (consolidateEmails chainAuthorEmails) "a@e" = "a@e" ∧
    lookupEmail (consolidateEmails chainAuthorEmails) "c@e" = "b@e" ∧
    ("a@e" : String) ≠ "b@e" := by
  refine ⟨by decide, by decide, by decide⟩

/-- C2: merging a `get_repo_stats` result set with itself does *not*
reproduce the per-identity commit count.  `get_repo_stats` never records
commit hashes, so the hash-based dedup in `merge_stats` unions empty sets
and then overwrites `commits` with `len(merged hash set) = 0`: the
identity's 3 commits become 0, not 3 as the claim requires. -/
theorem c2_self_merge_zeroes_commit_count :
    (getMerged (merge_stats [[("dev", c2RepoDev)], [("dev", c2RepoDev)]]) "dev").commits
      = 0 ∧ c2RepoDev.commits = 3 := by
  refine ⟨by decide, by decide⟩

/-- C3 amended: the guarded ratios are nonnegative and the frequency score
is clamped into `[0, 10]`; but the upper bounds `day_ratio ≤ 1` and
`week_ratio ≤ 1` of the claim do not hold in general (see the
counterexample). -/
theorem c3_ratios_nonneg_score_bounded (todayDay : Int) (dates : List Int)
    (d : ScoreInput) :
    0 ≤ (finalizeStats todayDay dates).commit_day_ratio ∧
    0 ≤ (finalizeStats todayDay dates).commit_week_ratio ∧
    0 ≤ get_commit_frequency_score d ∧ get_commit_frequency_score d ≤ 10 := by
  refine ⟨ratioOf_nonneg _ _, ratioOf_nonneg _ _, ?_, ?_⟩
  · simp only [get_commit_frequency_score]
    exact le_max_right _ 0
  · simp only [get_commit_frequency_score]
    exact max_le (min_le_right _ 10) (by norm_num)

/-- C3 counterexample: commits at 05:00 on day 0 (timestamp 18000) and at
06:00 on day 1 (timestamp 108000), finalized on day 1, give
`total_days = ((1*86400 - 18000) // 86400) + 1 = 1` (the partial first day
is truncated by `timedelta.days`) while 2 distinct days carry commits, so
`commit_day_ratio = 2 > 1`, violating the claimed bound — with all commit
timestamps in the past. -/
theorem c3_day_ratio_exceeds_one :
    (finalizeStats 1 [18000, 108000]).commit_day_ratio = 2 ∧
    ¬ ((finalizeStats 1 [18000, 108000]).commit_day_ratio ≤ 1) := by
  have h : (finalizeStats 1 [18000, 108000]).commit_day_ratio = ratioOf 2 1 := rfl
  constructor
  · rw [h]; norm_num [ratioOf]
  · rw [h]; norm_num [ratioOf]

/-- C4: on a GitHub noreply address `id+username@users.noreply.github.com`
the code's regex `([^+]+)\+` captures the part *before* the `'+'` — the
numeric id — so `normalize_email` rewrites the address to `id@github.com`,
not to `username@github.com`; consequently it does not coincide with the
normalization of `username@github.com`, contradicting the claim (the code's
own comment says it extracts the username). -/
theorem c4_normalize_email_extracts_id_not_username :
    normalize_email "12345+alice@users.noreply.github.com" = "12345@github.com" ∧
    normalize_email "alice@github.com" = "alice@github.com" ∧
    ("12345@github.com" : String) ≠ "alice@github.com" := by
  refine ⟨by decide, by decide, by decide⟩

/-- C5 counterexample: an identity whose only commit is at timestamp 0
(1970-01-01), finalized by the single-repository pass on day 70
(1970-03-12), gets `total_months = 3` — the span runs from the first
commit month to the *current date's* month — while the claim's
first-to-last formula gives 1. -/
theorem c5_repo_month_span_uses_today :
    (finalizeStats 70 [0]).total_months = 3 ∧ specMonthSpan 0 0 = 1 ∧
    (finalizeStats 70 [0]).total_months ≠ specMonthSpan 0 0 := by
  refine ⟨by decide, by decide, by decide⟩

/-- C5 amended: only the multi-repository merge finalization computes the
month span from the identity's own first and last commit months, matching
the claim's formula; the single-repository finalization instead spans from
the identity's first commit month to the current date's month. -/
theorem c5_month_span_merge_vs_repo :
    (∀ (firstCommit lastCommit : Int) (m : Nat),
      (merge_month_metrics firstCommit (some lastCommit) m).1
          = specMonthSpan firstCommit lastCommit ∧
      (merge_month_metrics firstCommit (some lastCommit) m).2
          = ratioOf m (specMonthSpan firstCommit lastCommit)) ∧
    (∀ (todayDay : Int) (dates : List Int),
      (finalizeStats todayDay dates).total_months
        = monthIndexOfDay todayDay - monthIndexOfDay (dayOfTs (minList dates)) + 1) := by
  constructor
  · intro firstCommit lastCommit m
    exact ⟨rfl, rfl⟩
  · intro todayDay dates
    rfl

/-- C6: for an identity whose only active days are a Friday `f` and the
following Monday `f + 3`, the display streak bridges the weekend
(`max_streak = 2`) while the plain streak-gap accounting counts the
Saturday and Sunday as 2 gap days (`total_gap_days = 2`); the two streak
computations are distinct and both are produced by the finalization. -/
theorem c6_weekend_bridging_streak (todayDay f : Int)
    (hf : weekdayOfDay f = 4) :
    (finalizeStats todayDay [f * 86400, (f + 3) * 86400]).max_streak = 2 ∧
    (finalizeStats todayDay [f * 86400, (f + 3) * 86400]).total_gap_days = 2 := by
  have hm : weekdayOfDay (f + 3) = 0 := by
    unfold weekdayOfDay at hf ⊢
    omega
  have e1 : (f * 86400) / 86400 = f := Int.mul_ediv_cancel f (by norm_num)
  have e2 : ((f + 3) * 86400) / 86400 = f + 3 := Int.mul_ediv_cancel _ (by norm_num)
  have hne : f + 3 ≠ f := by omega
  have hkeys : activeDayKeys [f * 86400, (f + 3) * 86400] = [f, f + 3] := by
    simp [activeDayKeys, keysOf, addKey, dayOfTs, e1, e2, hne]
  have hle : f ≤ f + 3 := by omega
  have hsorted : sortedActiveDays [f * 86400, (f + 3) * 86400] = [f, f + 3] := by
    simp [sortedActiveDays, sortedListOf, hkeys, List.insertionSort,
      List.orderedInsert, hle]
  constructor
  · show maxStreakCalc (sortedActiveDays [f * 86400, (f + 3) * 86400]) = 2
    rw [hsorted]
    have hcond : (f + 3) - f = 1 ∨
        ((f + 3) - f ≤ 3 ∧ weekdayOfDay f = 4 ∧ weekdayOfDay (f + 3) = 0) :=
      Or.inr ⟨by omega, hf, hm⟩
    simp only [maxStreakCalc, maxStreakGo, if_pos hcond]
    decide
  · show (if (sortedActiveDays [f * 86400, (f + 3) * 86400]).length > 1
        then plainStreakGap (sortedActiveDays [f * 86400, (f + 3) * 86400])
        else ((sortedActiveDays [f * 86400, (f + 3) * 86400]).length, 0)).2 = 2
    rw [hsorted]
    have hlen : ([f, f + 3] : List Int).length > 1 := by simp
    rw [if_pos hlen]
    have hg1 : ¬ ((f + 3) - f = 1) := by omega
    simp only [plainStreakGap, plainStreakGo, if_neg hg1]
    omega

/-- Witness for C6 at the concrete Friday 1970-01-02 (day 1) and Monday
1970-01-05 (day 4). -/
theorem c6_weekend_bridging_witness :
    weekdayOfDay 1 = 4 ∧
    ((finalizeStats 5 [1 * 86400, (1 + 3) * 86400]).max_streak = 2 ∧
      (finalizeStats 5 [1 * 86400, (1 + 3) * 86400]).total_gap_days = 2) :=
  ⟨by decide, c6_weekend_bridging_streak 5 1 (by decide)⟩

/-- C7: the code's frequency score coincides with the specification's
closed-form `clamp(0, 10, round(..., 1))` formula on every input — the
code's conditional gap penalty equals `min(max(avg_gap_days-7,0)/7, 2)` —
and the spec's example input (full day and week coverage, streak 10,
average gap 1) scores exactly 10. -/
theorem c7_score_formula_and_example :
    (∀ d : ScoreInput, get_commit_frequency_score d = spec_frequency_score d) ∧
    get_commit_frequency_score
      { commit_day_ratio := 1, commit_week_ratio := 1,
        max_streak := 10, avg_gap_days := 1 } = 10 := by
  constructor
  · intro d
    simp only [get_commit_frequency_score, spec_frequency_score, clamp]
    have hpen : (if d.avg_gap_days > 7 then min ((d.avg_gap_days - 7) / 7) 2 else 0)
        = min (max (d.avg_gap_days - 7) 0 / 7) 2 := by
      split
      · next h => rw [max_eq_left (by linarith)]
      · next h =>
        rw [max_eq_right (by linarith), zero_div]
        exact (min_eq_left (by norm_num)).symm
    rw [hpen, max_comm, min_comm]
  · simp only [get_commit_frequency_score]
    norm_num
    have h10 : roundTo1 10 = 10 := by
      norm_num [roundTo1, roundHalfEven, ratFloor]
    rw [h10]
    norm_num

/-- C8 counterexample: a commit at 01:00 on the `until` calendar date
(1970-01-01, day 0, timestamp 3600) falls on the `until` date, yet the
filter excludes it, because `until` is parsed as midnight and the code
drops any commit strictly after that instant. -/
theorem c8_until_date_commit_excluded :
    dayOfTs 3600 = 0 ∧ keepCommit 3600 none (some 0) = false := by
  constructor
  · decide
  · decide

/-- C8 amended: the filters keep exactly the timestamps in the closed
interval from the `since` date's midnight to the `until` date's midnight.
Hence the `since` bound is inclusive of its whole calendar day (every
timestamp on that day is ≥ its midnight), but the `until` bound admits
only the single midnight instant of its calendar day — commits later on
the `until` date are excluded. -/
theorem c8_filter_interval (s u t : Int) :
    keepCommit t (some s) (some u) = true ↔ s * 86400 ≤ t ∧ t ≤ u * 86400 := by
  simp only [keepCommit, Bool.and_eq_true, Bool.not_eq_true', decide_eq_false_iff_not,
    not_lt]

/-- C9: a fatal error for the first repository (here an invalid path;
nonexistent paths and missing branches behave identically) aborts the
whole multi-repository run: `get_repo_stats` calls `sys.exit(1)`, whose
`SystemExit` is not caught by the caller's `except Exception`, so none of
the remaining repositories are processed — contradicting the claim that
the caller skips the failed repository and continues. -/
theorem c9_fatal_error_aborts_the_whole_run (rest : List RepoSpec) :
    collectRepoStats (RepoSpec.invalidPath :: rest)
      = .error (.systemExit 1) := by
  simp [collectRepoStats, get_repo_stats_outcome]

/-- C10: in the merge, the churn counters are plain sums with no
deduplication — contributing the same single-repository result set twice
doubles `lines_added`, `lines_deleted`, `net_lines` and `files_changed` —
while the hash-based mechanism keeps the merged commit count at the number
of distinct hashes. -/
theorem c10_merge_churn_sums_while_commits_dedup
    (i : String) (d : DevData) (hs : List String)
    (hhs : d.commit_hashes = some hs) (hnd : hs.Nodup) :
    (getMerged (merge_stats [[(i, d)], [(i, d)]]) i).lines_added
        = 2 * d.lines_added ∧
    (getMerged (merge_stats [[(i, d)], [(i, d)]]) i).lines_deleted
        = 2 * d.lines_deleted ∧
    (getMerged (merge_stats [[(i, d)], [(i, d)]]) i).net_lines
        = 2 * d.net_lines ∧
    (getMerged (merge_stats [[(i, d)], [(i, d)]]) i).files_changed
        = 2 * d.files_changed ∧
    (getMerged (merge_stats [[(i, d)], [(i, d)]]) i).commits = hs.length := by
  have h1 : hashUpdate [] hs = hs := by
    simpa using hashUpdate_append_of_disjoint hs [] (by simp) hnd
  have h2 : hashUpdate hs hs = hs := hashUpdate_of_subset hs hs (fun x hx => hx)
  have key : merge_stats [[(i, d)], [(i, d)]]
      = [(i, mergeDevInto (mergeDevInto emptyMergedDev d) d)] := by
    simp [merge_stats, getMerged, setMerged]
  rw [key]
  simp [getMerged, mergeDevInto, emptyMergedDev, hhs, h1, h2]
  refine ⟨by omega, by omega, by ring, by omega⟩

/-- Witness for C10 at a concrete input. -/
theorem c10_merge_churn_witness :
    (c10Dev.commit_hashes = some ["h1", "h2"] ∧
      (["h1", "h2"] : List String).Nodup) ∧
    ((getMerged (merge_stats [[("a", c10Dev)], [("a", c10Dev)]]) "a").lines_added
        = 2 * c10Dev.lines_added ∧
      (getMerged (merge_stats [[("a", c10Dev)], [("a", c10Dev)]]) "a").lines_deleted
        = 2 * c10Dev.lines_deleted ∧
      (getMerged (merge_stats [[("a", c10Dev)], [("a", c10Dev)]]) "a").net_lines
        = 2 * c10Dev.net_lines ∧
      (getMerged (merge_stats [[("a", c10Dev)], [("a", c10Dev)]]) "a").files_changed
        = 2 * c10Dev.files_changed ∧
      (getMerged (merge_stats [[("a", c10Dev)], [("a", c10Dev)]]) "a").commits
        = (["h1", "h2"] : List String).length) :=
  ⟨⟨by decide, by decide⟩,
    c10_merge_churn_sums_while_commits_dedup "a" c10Dev ["h1", "h2"]
      (by decide) (by decide)⟩
